import Mathlib

/-
Verification of the VR-mask rental bot (`backend/server.py`).

The embedding models calendar dates as natural numbers (days since an
arbitrary epoch, matching the midnight-UTC normalization of the source),
the MongoDB `bookings` collection as a `List Booking`, and the global
`user_sessions` dict as an association list keyed by the Telegram user id.
Each handler of the source is translated to a pure state-passing function;
Python `KeyError` paths and silent early returns are made explicit through
outcome inductives.
-/

set_option autoImplicit false

namespace VRRental

/-- A reservation document, mirroring the `Booking` pydantic model of
`backend/server.py` (datetimes as day numbers, the uuid id as a counter). -/
structure Booking where
  id : Nat
  user_id : Nat
  username : Option String
  first_name : Option String
  masks_count : Nat
  days_count : Nat
  start_date : Nat
  end_date : Nat
  price : Nat
  delivery_address : String
  status : String
  created_at : Nat
deriving DecidableEq

/-- The `PRICES` nested dict of the source; a missing key (Python `KeyError`)
is `none`. -/
def PRICES (masks days : Nat) : Option Nat :=
  match masks, days with
  | 1, 1 => some 70
  | 1, 2 => some 130
  | 1, 3 => some 180
  | 2, 1 => some 140
  | 2, 2 => some 260
  | 2, 3 => some 360
  | _, _ => none

/-- Status filter `status in ["pending", "confirmed"]` used by every
capacity-related query of the source. -/
def isActive (b : Booking) : Bool :=
  b.status == "pending" || b.status == "confirmed"

/-- The `$or` overlap condition of the Mongo query in `get_available_dates`
(lines 99-103 of the source), for the window `[checkDate, endDate)`:
`start_date < endDate ∧ start_date ≥ checkDate`, or
`end_date > checkDate ∧ end_date ≤ endDate`, or
`start_date ≤ checkDate ∧ end_date ≥ endDate`. -/
def overlapCond (b : Booking) (checkDate endDate : Nat) : Bool :=
  (decide (b.start_date < endDate) && decide (checkDate ≤ b.start_date)) ||
  (decide (checkDate < b.end_date) && decide (b.end_date ≤ endDate)) ||
  (decide (b.start_date ≤ checkDate) && decide (endDate ≤ b.end_date))

/-- The aggregation pipeline of `get_available_dates`: total `masks_count`
over active bookings matching the overlap condition for the window. -/
def bookedMasks (bs : List Booking) (checkDate endDate : Nat) : Nat :=
  ((bs.filter (fun b => isActive b && overlapCond b checkDate endDate)).map
    (fun b => b.masks_count)).sum

/-- The scanning loop of `get_available_dates`: `i` is the current day
offset, `fuel` the number of offsets left to try (the source iterates
`i in range(1, 31)`), `need` the number of result slots left (the source
breaks once 7 dates are collected). -/
def availGo (bs : List Booking) (masks days today : Nat) :
    Nat → Nat → Nat → List Nat
  | _, 0, _ => []
  | i, fuel + 1, need =>
    let c := today + i
    if bookedMasks bs c (c + days) + masks ≤ 2 then
      c :: (if need ≤ 1 then [] else availGo bs masks days today (i + 1) fuel (need - 1))
    else
      availGo bs masks days today (i + 1) fuel need

/-- Function `get_available_dates(masks_needed, days_needed)` of the source, with the
reservation snapshot and `today` (midnight UTC) made explicit parameters. -/
def get_available_dates (bs : List Booking) (masks days today : Nat) : List Nat :=
  availGo bs masks days today 1 30 7

/-- A booking covers an instant `t` (day granularity) when `t` lies in its
half-open stay interval `[start_date, end_date)`. -/
def covers (b : Booking) (t : Nat) : Bool :=
  decide (b.start_date ≤ t) && decide (t < b.end_date)

/-- Total units in use at instant `t`: sum of `masks_count` over active
bookings covering `t` (the quantity whose bound is the capacity invariant). -/
def usageAt (bs : List Booking) (t : Nat) : Nat :=
  ((bs.filter (fun b => isActive b && covers b t)).map
    (fun b => b.masks_count)).sum

/-- The hypothetical reservation the availability scan vouches for: the
requested quantity over `[d, d + days)`, committed with status `pending`. -/
def mkReservation (masks d days : Nat) : Booking :=
  { id := 0, user_id := 0, username := none, first_name := none,
    masks_count := masks, days_count := days, start_date := d,
    end_date := d + days, price := 0, delivery_address := "",
    status := "pending", created_at := 0 }

/-- One entry of the `user_sessions` dict. A session is only ever created as
`{"masks_count": n}` (line 245 of the source), so `masks_count` is always
present; `days_count` and `start_date` are added by later steps. -/
structure Session where
  masks_count : Nat
  days_count : Option Nat
  start_date : Option Nat
deriving DecidableEq

/-- Dict read `user_sessions.get(uid)`. -/
def slookup (ss : List (Nat × Session)) (uid : Nat) : Option Session :=
  match ss with
  | [] => none
  | (u, s) :: rest => if u = uid then some s else slookup rest uid

/-- Dict write `user_sessions[uid] = s` (keys stay unique). -/
def sset (ss : List (Nat × Session)) (uid : Nat) (s : Session) :
    List (Nat × Session) :=
  match ss with
  | [] => [(uid, s)]
  | (u, t) :: rest => if u = uid then (u, s) :: rest else (u, t) :: sset rest uid s

/-- Dict delete `del user_sessions[uid]`. -/
def sdel (ss : List (Nat × Session)) (uid : Nat) : List (Nat × Session) :=
  match ss with
  | [] => []
  | (u, t) :: rest => if u = uid then rest else (u, t) :: sdel rest uid

/-- The mutable globals the handlers touch: the session dict, the bookings
collection, the uuid generator (as a counter) and the current day (the
`datetime.now` midnight normalization). -/
structure BotState where
  sessions : List (Nat × Session)
  bookings : List Booking
  nextId : Nat
  today : Nat
deriving DecidableEq

/-- Callback-query payloads relevant to the intake flow:
`start_booking`, `masks_N`, `days_N`, `date_D`. -/
inductive CbEvent where
  | startBooking : CbEvent
  | masks : Nat → CbEvent
  | days : Nat → CbEvent
  | date : Nat → CbEvent
deriving DecidableEq

/-- Externally observable outcome of `handle_callback`: which message the
handler sends, the session-expired reply, or an uncaught Python `KeyError`. -/
inductive CbOutcome where
  | askMasks : CbOutcome
  | askDays : Nat → CbOutcome
  | sessionExpired : CbOutcome
  | noAvailability : CbOutcome
  | offerDates : List Nat → Nat → CbOutcome
  | askAddress : Nat → Nat → CbOutcome
  | keyError : CbOutcome
deriving DecidableEq

/-- Handler `handle_callback` of the source, restricted to the intake branches
(the `admin_` branches are read-only reporting). Each branch mirrors the
Python statement order, in particular which mutations precede a possible
`KeyError`. -/
def handle_callback (st : BotState) (uid : Nat) (ev : CbEvent) :
    BotState × CbOutcome :=
  match ev with
  | .startBooking => (st, .askMasks)
  | .masks n =>
    let st' := { st with
      sessions := sset st.sessions uid
        { masks_count := n, days_count := none, start_date := none } }
    let out : CbOutcome :=
      match PRICES n 1, PRICES n 2, PRICES n 3 with
      | some _, some _, some _ => .askDays n
      | _, _, _ => .keyError
    (st', out)
  | .days n =>
    match slookup st.sessions uid with
    | none => (st, .sessionExpired)
    | some s =>
      let st' := { st with
        sessions := sset st.sessions uid { s with days_count := some n } }
      let avail := get_available_dates st.bookings s.masks_count n st.today
      if avail.isEmpty then
        (st', .noAvailability)
      else
        match PRICES s.masks_count n with
        | some p => (st', .offerDates avail p)
        | none => (st', .keyError)
  | .date d =>
    match slookup st.sessions uid with
    | none => (st, .sessionExpired)
    | some s =>
      let st' := { st with
        sessions := sset st.sessions uid { s with start_date := some d } }
      match s.days_count with
      | none => (st', .keyError)
      | some dc => (st', .askAddress d (d + dc))

/-- Externally observable outcome of `handle_text`: the silent early return,
an uncaught `KeyError`, or a committed reservation. -/
inductive TextOutcome where
  | ignored : TextOutcome
  | keyError : TextOutcome
  | committed : Booking → TextOutcome
deriving DecidableEq

/-- Handler `handle_text` of the source: the address step that commits the
reservation. Note it contains no availability or capacity check — it builds
the `Booking` from the session and inserts it unconditionally. -/
def handle_text (st : BotState) (uid : Nat) (un fn : Option String)
    (text : String) : BotState × TextOutcome :=
  match slookup st.sessions uid with
  | none => (st, .ignored)
  | some s =>
    match s.start_date with
    | none => (st, .ignored)
    | some sd =>
      match s.days_count with
      | none => (st, .keyError)
      | some dc =>
        match PRICES s.masks_count dc with
        | none => (st, .keyError)
        | some p =>
          let b : Booking :=
            { id := st.nextId, user_id := uid, username := un,
              first_name := fn, masks_count := s.masks_count,
              days_count := dc, start_date := sd, end_date := sd + dc,
              price := p, delivery_address := text, status := "pending",
              created_at := st.today }
          ({ st with bookings := st.bookings ++ [b],
                     sessions := sdel st.sessions uid,
                     nextId := st.nextId + 1 },
           .committed b)

/-- Mongo `update_one` on the id filter with a status `$set`: it updates the
first matching document; `none` models `matched_count == 0`. -/
def updateFirst (bid : Nat) (s : String) : List Booking → Option (List Booking)
  | [] => none
  | b :: rest =>
    if b.id = bid then some ({ b with status := s } :: rest)
    else (updateFirst bid s rest).map (fun l => b :: l)

/-- Route `update_booking_status` of the source (PUT bookings status):
404 when no document matches, otherwise the updated collection. -/
def update_booking_status (bs : List Booking) (bid : Nat) (s : String) :
    Except Nat (List Booking) :=
  match updateFirst bid s bs with
  | none => .error 404
  | some l => .ok l

/-- Mongo `delete_one` on the id filter: removes the first matching document;
`none` models `deleted_count == 0`. -/
def deleteFirst (bid : Nat) : List Booking → Option (List Booking)
  | [] => none
  | b :: rest =>
    if b.id = bid then some rest
    else (deleteFirst bid rest).map (fun l => b :: l)

/-- Route `delete_booking` of the source (DELETE bookings id). -/
def delete_booking (bs : List Booking) (bid : Nat) : Except Nat (List Booking) :=
  match deleteFirst bid bs with
  | none => .error 404
  | some l => .ok l

/-! Helper lemmas -/

theorem sum_filter_le (bs : List Booking) (p q : Booking → Bool)
    (h : ∀ b, p b = true → q b = true) :
    ((bs.filter p).map (fun b => b.masks_count)).sum ≤
    ((bs.filter q).map (fun b => b.masks_count)).sum := by
  induction bs with
  | nil => simp
  | cons b rest ih =>
    by_cases hp : p b = true
    · have hq := h b hp
      simp only [List.filter_cons, hp, hq, if_true, List.map_cons, List.sum_cons]
      omega
    · rw [Bool.not_eq_true] at hp
      by_cases hq : q b = true
      · simp only [List.filter_cons, hp, hq, Bool.false_eq_true, if_false, if_true,
          List.map_cons, List.sum_cons]
        omega
      · rw [Bool.not_eq_true] at hq
        simpa only [List.filter_cons, hp, hq, Bool.false_eq_true, if_false] using ih

theorem overlapCond_of (b : Booking) (c e : Nat)
    (h1 : b.start_date < e) (h2 : c < b.end_date) :
    overlapCond b c e = true := by
  simp only [overlapCond, Bool.or_eq_true, Bool.and_eq_true, decide_eq_true_eq]
  omega

theorem availGo_mem (bs : List Booking) (masks days today : Nat) :
    ∀ fuel i need d, d ∈ availGo bs masks days today i fuel need →
      today + i ≤ d ∧ d < today + i + fuel ∧
      bookedMasks bs d (d + days) + masks ≤ 2 := by
  intro fuel
  induction fuel with
  | zero => intro i need d hd; simp [availGo] at hd
  | succ fuel ih =>
    intro i need d hd
    simp only [availGo] at hd
    split at hd
    · rcases List.mem_cons.mp hd with rfl | hd'
      · refine ⟨Nat.le_refl _, by omega, by assumption⟩
      · split at hd'
        · simp at hd'
        · have h := ih (i + 1) (need - 1) d hd'
          exact ⟨by omega, by omega, h.2.2⟩
    · have h := ih (i + 1) need d hd
      exact ⟨by omega, by omega, h.2.2⟩

theorem availGo_length (bs : List Booking) (masks days today : Nat) :
    ∀ fuel i need, 1 ≤ need →
      (availGo bs masks days today i fuel need).length ≤ need := by
  intro fuel
  induction fuel with
  | zero => intro i need hn; simp [availGo]
  | succ fuel ih =>
    intro i need hn
    simp only [availGo]
    split
    · by_cases h1 : need ≤ 1
      · simp [h1]; omega
      · have h := ih (i + 1) (need - 1) (by omega)
        simp only [h1, if_false, List.length_cons]
        omega
    · exact Nat.le_trans (ih (i + 1) need hn) (Nat.le_refl _)

theorem availGo_pairwise (bs : List Booking) (masks days today : Nat) :
    ∀ fuel i need, (availGo bs masks days today i fuel need).Pairwise (· < ·) := by
  intro fuel
  induction fuel with
  | zero => intro i need; simp [availGo]
  | succ fuel ih =>
    intro i need
    simp only [availGo]
    split
    · refine List.Pairwise.cons ?_ ?_
      · intro d hd
        split at hd
        · simp at hd
        · have h := availGo_mem bs masks days today fuel (i + 1) (need - 1) d hd
          omega
      · split
        · exact List.Pairwise.nil
        · exact ih (i + 1) (need - 1)
    · exact ih (i + 1) need

theorem availGo_nil (bs : List Booking) (masks days today : Nat)
    (fuel i need : Nat)
    (h : ∀ j, i ≤ j → j < i + fuel →
      ¬ (bookedMasks bs (today + j) (today + j + days) + masks ≤ 2)) :
    availGo bs masks days today i fuel need = [] := by
  induction fuel generalizing i need with
  | zero => simp [availGo]
  | succ fuel ih =>
    simp only [availGo]
    split
    · exact absurd (by assumption) (h i (Nat.le_refl _) (by omega))
    · exact ih (i + 1) need (fun j hj1 hj2 => h j (by omega) (by omega))

theorem usageAt_cons (b : Booking) (bs : List Booking) (t : Nat) :
    usageAt (b :: bs) t =
      (if isActive b && covers b t then b.masks_count else 0) + usageAt bs t := by
  simp only [usageAt, List.filter_cons]
  split <;> simp

theorem usageAt_le_booked (bs : List Booking) (t c e : Nat)
    (h1 : c ≤ t) (h2 : t < e) :
    usageAt bs t ≤ bookedMasks bs c e := by
  apply sum_filter_le
  intro b hb
  rw [Bool.and_eq_true] at hb ⊢
  refine ⟨hb.1, ?_⟩
  have hcov := hb.2
  simp only [covers, Bool.and_eq_true, decide_eq_true_eq] at hcov
  exact overlapCond_of b c e (by omega) (by omega)

/-! Claim theorems -/

/-- C4: the overlap check of `get_available_dates` has exact half-open
semantics: a reservation ending on the candidate start does not count, one
starting at the window end does not count, and the counted reservations are
exactly those with `start < window.end` and `end > window.start`. -/
theorem overlap_adjacency_exact (b : Booking) (c e : Nat)
    (hb : b.start_date < b.end_date) (hw : c < e) :
    (b.end_date = c → overlapCond b c e = false) ∧
    (b.start_date = e → overlapCond b c e = false) ∧
    (overlapCond b c e = true ↔ (b.start_date < e ∧ c < b.end_date)) := by
  simp only [overlapCond, Bool.or_eq_true, Bool.and_eq_true, decide_eq_true_eq,
    Bool.or_eq_false_iff, Bool.and_eq_false_iff, decide_eq_false_iff_not]
  omega

theorem overlap_adjacency_exact_witness :
    (mkReservation 1 3 2).start_date < (mkReservation 1 3 2).end_date ∧
    (5 : Nat) < 7 ∧
    (((mkReservation 1 3 2).end_date = 5 →
        overlapCond (mkReservation 1 3 2) 5 7 = false) ∧
     ((mkReservation 1 3 2).start_date = 7 →
        overlapCond (mkReservation 1 3 2) 5 7 = false) ∧
     (overlapCond (mkReservation 1 3 2) 5 7 = true ↔
        ((mkReservation 1 3 2).start_date < 7 ∧ 5 < (mkReservation 1 3 2).end_date))) :=
  ⟨by decide, by decide,
    overlap_adjacency_exact (mkReservation 1 3 2) 5 7 (by decide) (by decide)⟩

/-- C2: adding a reservation of the requested quantity at any date returned
by `get_available_dates` keeps total usage at every instant of the requested
window within the capacity of 2 units. -/
theorem find_available_safe (bs : List Booking) (masks days today d t : Nat)
    (hd : d ∈ get_available_dates bs masks days today)
    (ht1 : d ≤ t) (ht2 : t < d + days) :
    usageAt (mkReservation masks d days :: bs) t ≤ 2 := by
  have hm := availGo_mem bs masks days today 30 1 7 d hd
  have hcap : bookedMasks bs d (d + days) + masks ≤ 2 := hm.2.2
  have hactive : isActive (mkReservation masks d days) = true := by
    simp [isActive, mkReservation]
  have hcov : covers (mkReservation masks d days) t = true := by
    simp only [covers, mkReservation, Bool.and_eq_true, decide_eq_true_eq]
    omega
  rw [usageAt_cons, hactive, hcov]
  have hle := usageAt_le_booked bs t d (d + days) ht1 ht2
  simp only [Bool.and_self, if_true, mkReservation]
  omega

theorem find_available_safe_witness :
    1 ∈ get_available_dates [] 1 2 0 ∧ (1 : Nat) ≤ 1 ∧ (1 : Nat) < 1 + 2 ∧
    usageAt [mkReservation 1 1 2] 1 ≤ 2 :=
  ⟨by decide, by decide, by decide,
    find_available_safe [] 1 2 0 1 1 (by decide) (by decide) (by decide)⟩

/-- C7: `get_available_dates` yields at most 7 strictly ascending,
duplicate-free dates, each strictly after `today` and at most 30 days after
it, and yields the empty list (not an error) when no day of the horizon
passes the capacity check. -/
theorem available_dates_shape (bs : List Booking) (masks days today : Nat) :
    (get_available_dates bs masks days today).length ≤ 7 ∧
    (get_available_dates bs masks days today).Pairwise (· < ·) ∧
    (get_available_dates bs masks days today).Nodup ∧
    (∀ d ∈ get_available_dates bs masks days today,
      today < d ∧ d ≤ today + 30) ∧
    ((∀ i, i < 30 →
        ¬ (bookedMasks bs (today + 1 + i) (today + 1 + i + days) + masks ≤ 2)) →
      get_available_dates bs masks days today = []) := by
  refine ⟨availGo_length bs masks days today 30 1 7 (by omega),
          availGo_pairwise bs masks days today 30 1 7,
          List.Pairwise.imp Nat.ne_of_lt (availGo_pairwise bs masks days today 30 1 7),
          ?_, ?_⟩
  · intro d hd
    have h := availGo_mem bs masks days today 30 1 7 d hd
    omega
  · intro h
    apply availGo_nil
    intro j hj1 hj2
    have e1 : today + 1 + (j - 1) = today + j := by omega
    have h2 := h (j - 1) (by omega)
    rw [e1] at h2
    exact h2

theorem available_dates_shape_witness :
    (get_available_dates [] 1 2 0).length ≤ 7 ∧
    (get_available_dates [] 1 2 0).Pairwise (· < ·) ∧
    (get_available_dates [] 1 2 0).Nodup ∧
    (∀ d ∈ get_available_dates [] 1 2 0, 0 < d ∧ d ≤ 0 + 30) ∧
    ((∀ i, i < 30 →
        ¬ (bookedMasks [] (0 + 1 + i) (0 + 1 + i + 2) + 1 ≤ 2)) →
      get_available_dates [] 1 2 0 = []) :=
  available_dates_shape [] 1 2 0

/-- C6 counterexample: an out-of-domain request (quantity 0, duration 5) is
not rejected before the scan — `get_available_dates` has no `InvalidRequest`
path at all and returns an ordinary scan result. -/
theorem out_of_domain_scan_returns_dates :
    get_available_dates [] 0 5 0 = [1, 2, 3, 4, 5, 6, 7] := by decide

/-- C6 amended: `get_available_dates` performs no domain validation and never
fails; a quantity exceeding the capacity of 2 simply yields the empty list
through the capacity arithmetic. -/
theorem oversized_quantity_scans_empty (bs : List Booking)
    (days today masks : Nat) (h : 3 ≤ masks) :
    get_available_dates bs masks days today = [] := by
  apply availGo_nil
  intro j hj1 hj2
  omega

theorem oversized_quantity_scans_empty_witness :
    3 ≤ 3 ∧ get_available_dates [] 3 1 0 = [] :=
  ⟨by decide, oversized_quantity_scans_empty [] 1 0 3 (by decide)⟩

theorem slookup_sset_self (ss : List (Nat × Session)) (uid : Nat) (s : Session) :
    slookup (sset ss uid s) uid = some s := by
  induction ss with
  | nil => simp [sset, slookup]
  | cons p rest ih =>
    obtain ⟨u, t⟩ := p
    by_cases h : u = uid
    · simp [sset, slookup, h]
    · simp [sset, slookup, h, ih]

theorem slookup_sset_other (ss : List (Nat × Session)) (uid uid' : Nat)
    (s : Session) (h : uid' ≠ uid) :
    slookup (sset ss uid s) uid' = slookup ss uid' := by
  have hne : ¬ (uid = uid') := fun he => h he.symm
  induction ss with
  | nil => simp [sset, slookup, hne]
  | cons p rest ih =>
    obtain ⟨u, t⟩ := p
    by_cases hu : u = uid
    · subst hu
      simp [sset, slookup, hne]
    · simp [sset, slookup, hu, ih]

/-- C10: a `masks_N` callback replaces the requester's whole session with one
holding only the chosen quantity, and leaves every other requester's session
and the reservation collection unchanged. -/
theorem masks_event_replaces_session (st : BotState) (uid n uid' : Nat)
    (h : uid' ≠ uid) :
    slookup (handle_callback st uid (CbEvent.masks n)).1.sessions uid =
      some { masks_count := n, days_count := none, start_date := none } ∧
    slookup (handle_callback st uid (CbEvent.masks n)).1.sessions uid' =
      slookup st.sessions uid' ∧
    (handle_callback st uid (CbEvent.masks n)).1.bookings = st.bookings := by
  refine ⟨?_, ?_, rfl⟩
  · exact slookup_sset_self st.sessions uid _
  · exact slookup_sset_other st.sessions uid uid' _ h

def stC10 : BotState :=
  { sessions := [(5, { masks_count := 2, days_count := some 3, start_date := some 9 }),
                 (6, { masks_count := 1, days_count := none, start_date := none })],
    bookings := [], nextId := 0, today := 0 }

theorem masks_event_replaces_session_witness :
    (6 : Nat) ≠ 5 ∧
    (slookup (handle_callback stC10 5 (CbEvent.masks 1)).1.sessions 5 =
       some { masks_count := 1, days_count := none, start_date := none } ∧
     slookup (handle_callback stC10 5 (CbEvent.masks 1)).1.sessions 6 =
       slookup stC10.sessions 6 ∧
     (handle_callback stC10 5 (CbEvent.masks 1)).1.bookings = stC10.bookings) :=
  ⟨by decide, masks_event_replaces_session stC10 5 1 6 (by decide)⟩

def stC3 : BotState :=
  { sessions := [(5, { masks_count := 1, days_count := none, start_date := none })],
    bookings := [], nextId := 0, today := 0 }

/-- C3 counterexample: a `date_` callback for a requester whose session lacks
`days_count` (a `selectDate` before any `selectDuration`) does not fail with
the session-expired reply: it first writes `start_date` into the session and
then hits the uncaught `KeyError` on `session["days_count"]`, so the session
is mutated and the emitted outcome is not `sessionExpired`. -/
theorem date_event_mutates_then_errors :
    (handle_callback stC3 5 (CbEvent.date 10)).2 = CbOutcome.keyError ∧
    (handle_callback stC3 5 (CbEvent.date 10)).1.sessions =
      [(5, { masks_count := 1, days_count := none, start_date := some 10 })] ∧
    CbOutcome.keyError ≠ CbOutcome.sessionExpired :=
  ⟨rfl, rfl, by decide⟩

/-- C3 amended: duration- and date-selection callbacks with no session fail
with the session-expired restart reply and leave the state unchanged; a free
text with no session is silently ignored (no reply at all); a date-selection
on a session missing the duration stores the date in the session (bookings
untouched) and raises an uncaught `KeyError` instead of `SessionExpired`; a
free text on a session with no chosen date is silently ignored. -/
theorem stale_event_handling (st : BotState) (uid n d : Nat)
    (un fn : Option String) (text : String) :
    (slookup st.sessions uid = none →
      handle_callback st uid (CbEvent.days n) = (st, CbOutcome.sessionExpired) ∧
      handle_callback st uid (CbEvent.date d) = (st, CbOutcome.sessionExpired) ∧
      handle_text st uid un fn text = (st, TextOutcome.ignored)) ∧
    (∀ s : Session, slookup st.sessions uid = some s → s.days_count = none →
      (handle_callback st uid (CbEvent.date d)).2 = CbOutcome.keyError ∧
      (handle_callback st uid (CbEvent.date d)).1.sessions =
        sset st.sessions uid { s with start_date := some d } ∧
      (handle_callback st uid (CbEvent.date d)).1.bookings = st.bookings) ∧
    (∀ s : Session, slookup st.sessions uid = some s → s.start_date = none →
      handle_text st uid un fn text = (st, TextOutcome.ignored)) := by
  refine ⟨?_, ?_, ?_⟩
  · intro h
    refine ⟨?_, ?_, ?_⟩ <;> simp [handle_callback, handle_text, h]
  · intro s hs hd
    simp [handle_callback, hs, hd]
  · intro s hs hsd
    simp [handle_text, hs, hsd]

def stC3empty : BotState :=
  { sessions := [], bookings := [], nextId := 0, today := 0 }

theorem stale_event_handling_witness :
    (handle_callback stC3empty 5 (CbEvent.days 2) =
       (stC3empty, CbOutcome.sessionExpired) ∧
     handle_callback stC3empty 5 (CbEvent.date 10) =
       (stC3empty, CbOutcome.sessionExpired) ∧
     handle_text stC3empty 5 none none "A" = (stC3empty, TextOutcome.ignored)) ∧
    ((handle_callback stC3 5 (CbEvent.date 11)).2 = CbOutcome.keyError ∧
     (handle_callback stC3 5 (CbEvent.date 11)).1.sessions =
       sset stC3.sessions 5
         { masks_count := 1, days_count := none, start_date := some 11 } ∧
     (handle_callback stC3 5 (CbEvent.date 11)).1.bookings = stC3.bookings) ∧
    handle_text stC3 5 none none "A" = (stC3, TextOutcome.ignored) :=
  ⟨(stale_event_handling stC3empty 5 2 10 none none "A").1 rfl,
   (stale_event_handling stC3 5 2 11 none none "A").2.1
     { masks_count := 1, days_count := none, start_date := none } rfl rfl,
   (stale_event_handling stC3 5 2 11 none none "A").2.2
     { masks_count := 1, days_count := none, start_date := none } rfl rfl⟩

def blockingBooking : Booking :=
  { id := 100, user_id := 9, username := none, first_name := none,
    masks_count := 2, days_count := 2, start_date := 10, end_date := 12,
    price := 260, delivery_address := "X", status := "confirmed",
    created_at := 0 }

def stFull : BotState :=
  { sessions := [(5, { masks_count := 1, days_count := some 2, start_date := some 10 })],
    bookings := [blockingBooking], nextId := 0, today := 0 }

/-- C1: the commit path `handle_text` performs no overlap/capacity check.
With both units already reserved (confirmed) over days `[10, 12)`, the
address step still commits a further 1-unit reservation for `[10, 12)`
successfully, after which total active usage at day 10 is 3, exceeding
the capacity of 2. -/
theorem create_commits_without_capacity_check :
    (handle_text stFull 5 none none "addr").2 = TextOutcome.committed
      { id := 0, user_id := 5, username := none, first_name := none,
        masks_count := 1, days_count := 2, start_date := 10, end_date := 12,
        price := 130, delivery_address := "addr", status := "pending",
        created_at := 0 } ∧
    2 < usageAt (handle_text stFull 5 none none "addr").1.bookings 10 :=
  ⟨rfl, by decide⟩

def seqState0 : BotState :=
  { sessions := [], bookings := [], nextId := 0, today := 0 }

def seqState1 : BotState := (handle_callback seqState0 7 CbEvent.startBooking).1

def seqState2 : BotState := (handle_callback seqState1 7 (CbEvent.masks 1)).1

def seqState3 : BotState := (handle_callback seqState2 7 (CbEvent.days 2)).1

/-- C5: the intake sequence restart → selectQuantity(1) → selectDuration(2) →
selectDate(an offered date) → free-text address commits exactly one
reservation with price `PRICES 1 2 = 130`, status `pending`,
`end_date = start_date + 2` and the given address, and destroys the
requester's session. -/
theorem intake_sequence_commits (addr : String) (d : Nat)
    (hd : d ∈ get_available_dates [] 1 2 0) :
    (handle_callback seqState2 7 (CbEvent.days 2)).2 =
      CbOutcome.offerDates (get_available_dates [] 1 2 0) 130 ∧
    handle_text (handle_callback seqState3 7 (CbEvent.date d)).1 7 none none addr =
      ({ sessions := [],
         bookings := [{
           id := 0, user_id := 7, username := none,
           first_name := none, masks_count := 1, days_count := 2,
           start_date := d, end_date := d + 2, price := 130,
           delivery_address := addr, status := "pending", created_at := 0 }],
         nextId := 1, today := 0 },
       TextOutcome.committed
         { id := 0, user_id := 7, username := none, first_name := none,
           masks_count := 1, days_count := 2, start_date := d,
           end_date := d + 2, price := 130, delivery_address := addr,
           status := "pending", created_at := 0 }) ∧
    PRICES 1 2 = some 130 :=
  ⟨rfl, rfl, rfl⟩

theorem intake_sequence_commits_witness :
    1 ∈ get_available_dates [] 1 2 0 ∧
    ((handle_callback seqState2 7 (CbEvent.days 2)).2 =
       CbOutcome.offerDates (get_available_dates [] 1 2 0) 130 ∧
     handle_text (handle_callback seqState3 7 (CbEvent.date 1)).1 7 none none "Addr 1" =
       ({ sessions := [],
          bookings := [{
            id := 0, user_id := 7, username := none,
            first_name := none, masks_count := 1, days_count := 2,
            start_date := 1, end_date := 1 + 2, price := 130,
            delivery_address := "Addr 1", status := "pending", created_at := 0 }],
          nextId := 1, today := 0 },
        TextOutcome.committed
          { id := 0, user_id := 7, username := none, first_name := none,
            masks_count := 1, days_count := 2, start_date := 1,
            end_date := 1 + 2, price := 130, delivery_address := "Addr 1",
            status := "pending", created_at := 0 }) ∧
     PRICES 1 2 = some 130) :=
  ⟨by decide, intake_sequence_commits "Addr 1" 1 (by decide)⟩

theorem updateFirst_none (bid : Nat) (s : String) :
    ∀ bs : List Booking, (∀ b ∈ bs, b.id ≠ bid) → updateFirst bid s bs = none := by
  intro bs
  induction bs with
  | nil => intro _; rfl
  | cons b rest ih =>
    intro h
    simp only [updateFirst, if_neg (h b (List.mem_cons_self b rest)),
      ih (fun x hx => h x (List.mem_cons_of_mem b hx)), Option.map_none']

theorem deleteFirst_none (bid : Nat) :
    ∀ bs : List Booking, (∀ b ∈ bs, b.id ≠ bid) → deleteFirst bid bs = none := by
  intro bs
  induction bs with
  | nil => intro _; rfl
  | cons b rest ih =>
    intro h
    simp only [deleteFirst, if_neg (h b (List.mem_cons_self b rest)),
      ih (fun x hx => h x (List.mem_cons_of_mem b hx)), Option.map_none']

/-- C8: a status update for an id matching no stored reservation answers 404
and performs no write, and a delete for an unknown id answers 404 and removes
nothing. -/
theorem unknown_id_not_found (bs : List Booking) (bid : Nat) (s : String)
    (h : ∀ b ∈ bs, b.id ≠ bid) :
    update_booking_status bs bid s = Except.error 404 ∧
    delete_booking bs bid = Except.error 404 := by
  unfold update_booking_status delete_booking
  rw [updateFirst_none bid s bs h, deleteFirst_none bid bs h]
  exact ⟨rfl, rfl⟩

def sampleBooking : Booking :=
  { id := 3, user_id := 4, username := none, first_name := none,
    masks_count := 1, days_count := 1, start_date := 1, end_date := 2,
    price := 70, delivery_address := "A", status := "pending", created_at := 0 }

def sampleBooking2 : Booking :=
  { sampleBooking with id := 4, status := "confirmed" }

theorem unknown_id_not_found_witness :
    (∀ b ∈ [sampleBooking, sampleBooking2], b.id ≠ 9) ∧
    (update_booking_status [sampleBooking, sampleBooking2] 9 "confirmed" =
       Except.error 404 ∧
     delete_booking [sampleBooking, sampleBooking2] 9 = Except.error 404) :=
  ⟨by decide,
   unknown_id_not_found [sampleBooking, sampleBooking2] 9 "confirmed" (by decide)⟩

theorem map_status_no_match (bid : Nat) (s : String) :
    ∀ bs : List Booking, (∀ x ∈ bs, x.id ≠ bid) →
      bs.map (fun b => if b.id = bid then { b with status := s } else b) = bs := by
  intro bs
  induction bs with
  | nil => intro _; rfl
  | cons b rest ih =>
    intro h
    simp only [List.map_cons, if_neg (h b (List.mem_cons_self b rest)),
      ih (fun x hx => h x (List.mem_cons_of_mem b hx))]

theorem updateFirst_eq_map (bid : Nat) (s : String) :
    ∀ bs : List Booking, (bs.map Booking.id).Nodup → (∃ b ∈ bs, b.id = bid) →
      updateFirst bid s bs =
        some (bs.map (fun b => if b.id = bid then { b with status := s } else b)) := by
  intro bs
  induction bs with
  | nil =>
    intro _ hmem
    obtain ⟨b, hb, _⟩ := hmem
    simp at hb
  | cons b rest ih =>
    intro hnd hmem
    rw [List.map_cons, List.nodup_cons] at hnd
    by_cases hb : b.id = bid
    · have hrest : rest.map (fun x => if x.id = bid then { x with status := s } else x) = rest := by
        apply map_status_no_match
        intro x hx hxid
        have hxm : x.id ∈ rest.map Booking.id := List.mem_map_of_mem Booking.id hx
        rw [hxid, ← hb] at hxm
        exact hnd.1 hxm
      simp only [updateFirst, if_pos hb, List.map_cons, hrest]
    · obtain ⟨b', hb', hbid⟩ := hmem
      have hb'rest : b' ∈ rest := by
        rcases List.mem_cons.mp hb' with rfl | hr
        · exact absurd hbid hb
        · exact hr
      simp only [updateFirst, if_neg hb, List.map_cons,
        ih hnd.2 ⟨b', hb'rest, hbid⟩, Option.map_some']

/-- C9: for an existing reservation id and an arbitrary string — including
values outside the documented status set — `update_booking_status` succeeds
and only rewrites that reservation's `status` field, leaving its other
fields and every other reservation unchanged; no value or transition
validation is performed. -/
theorem update_status_overwrites (bs : List Booking) (bid : Nat) (s : String)
    (hnd : (bs.map Booking.id).Nodup) (hmem : ∃ b ∈ bs, b.id = bid) :
    update_booking_status bs bid s =
      Except.ok (bs.map (fun b => if b.id = bid then { b with status := s } else b)) := by
  unfold update_booking_status
  rw [updateFirst_eq_map bid s bs hnd hmem]

theorem update_status_overwrites_witness :
    ([sampleBooking, sampleBooking2].map Booking.id).Nodup ∧
    (∃ b ∈ [sampleBooking, sampleBooking2], b.id = 4) ∧
    update_booking_status [sampleBooking, sampleBooking2] 4 "totally-made-up" =
      Except.ok ([sampleBooking, sampleBooking2].map
        (fun b => if b.id = 4 then { b with status := "totally-made-up" } else b)) :=
  ⟨by decide, ⟨sampleBooking2, by decide, by decide⟩,
   update_status_overwrites [sampleBooking, sampleBooking2] 4 "totally-made-up"
     (by decide) ⟨sampleBooking2, by decide, by decide⟩⟩

end VRRental
